import Mathlib

/-!
Verification of the spaced-review engine of the grind_review_bot repository.

The repository contains two generations of the persistence layer:
the raw-SQL store (`internal/database/models.go`, namespace `DB` below) and
a GORM-based repository (namespace `Repo` below).  Both are embedded here
over a common relational `Store` state.  Timestamps are integers, SQL rows
are Lean structures, and every fallible operation returns `Except`.
-/

namespace GrindReview

/-- Timestamps are modelled as integers (for instance Unix seconds); `time.Time`
comparisons in the Go source become integer comparisons, and Go durations become
integer differences. -/
abbrev Time := Int

/-- Status constant from internal/database/models.go. -/
def StatusSolved : String := "Solved"

/-- Status constant from internal/database/models.go. -/
def StatusNeededHint : String := "Needed Hint"

/-- Status constant from internal/database/models.go. -/
def StatusStuck : String := "Stuck"

/-- Difficulty constant from internal/database/models.go. -/
def DifficultyEasy : String := "Easy"

/-- Difficulty constant from internal/database/models.go. -/
def DifficultyMedium : String := "Medium"

/-- Difficulty constant from internal/database/models.go. -/
def DifficultyHard : String := "Hard"

/-- The ProblemEntry DTO (models.go): a user-submitted solved problem together
with its tag names. -/
structure ProblemEntry where
  id : Nat
  userID : String
  problemName : String
  link : String
  difficulty : String
  category : String
  status : String
  solvedAt : Time
  lastReviewedAt : Option Time
  reviewCount : Nat
  notes : String
  tags : List String
deriving Repr, DecidableEq

/-- UserStats (models.go): one row of the user_stats table. -/
structure UserStats where
  userID : String
  totalSolved : Nat
  totalNeededHint : Nat
  totalStuck : Nat
  easyCount : Nat
  mediumCount : Nat
  hardCount : Nat
  lastActiveAt : Option Time
deriving Repr, DecidableEq

/-- One stored row of the problems table (the columns of the schema in
migrations.go, minus the tag relation which lives in the junction table). -/
structure ProblemRow where
  id : Nat
  userID : String
  problemName : String
  link : String
  difficulty : String
  category : String
  status : String
  solvedAt : Time
  lastReviewedAt : Option Time
  reviewCount : Nat
  notes : String
deriving Repr, DecidableEq

/-- One row of the tags table: id plus the globally unique name. -/
structure TagRow where
  id : Nat
  name : String
deriving Repr, DecidableEq

/-- The relational store: the problems, tags, problem_tags and user_stats
tables, plus the AUTOINCREMENT counters for the two id columns. -/
structure Store where
  problems : List ProblemRow
  tags : List TagRow
  problemTags : List (Nat × Nat)
  userStats : List UserStats
  nextProblemId : Nat
  nextTagId : Nat
deriving Repr, DecidableEq

/-- The error taxonomy of the store operations.  `validation` stands for the
errors returned by ValidateProblemEntry, `notFound` for the "problem not
found: id" errors, and `linkConflict` for a violation of the
problem_tags (problem_id, tag_id) primary key. -/
inductive StoreError where
  | validation (msg : String)
  | notFound (id : Nat)
  | linkConflict (problemID tagID : Nat)
deriving Repr, DecidableEq

/-- ValidateProblemEntry (models.go and the GORM models file): the checks in
source order. -/
def ValidateProblemEntry (p : ProblemEntry) : Except StoreError Unit :=
  if p.userID = "" then .error (.validation "user ID is required")
  else if p.problemName = "" then .error (.validation "problem name is required")
  else if p.difficulty ≠ DifficultyEasy ∧ p.difficulty ≠ DifficultyMedium ∧
      p.difficulty ≠ DifficultyHard then
    .error (.validation "invalid difficulty")
  else if p.status ≠ StatusSolved ∧ p.status ≠ StatusNeededHint ∧
      p.status ≠ StatusStuck then
    .error (.validation "invalid status")
  else if p.category = "" then .error (.validation "category is required")
  else .ok ()

/-- Leading and trailing whitespace removal on the character list, used to
model Go's strings.TrimSpace. -/
def trimChars (s : List Char) : List Char :=
  ((s.dropWhile Char.isWhitespace).reverse.dropWhile Char.isWhitespace).reverse

/-- Go's strings.TrimSpace: strip leading and trailing whitespace. -/
def trimSpace (s : String) : String := ⟨trimChars s.data⟩

/-- Rollback semantics of a transactional operation returning a new store:
on error the transaction is rolled back and the store is unchanged. -/
def runExcept (st : Store) : Except StoreError Store → Store
  | .ok st' => st'
  | .error _ => st

/-- Rollback semantics for the create operations (which also return the
assigned id). -/
def runCreate (st : Store) : Except StoreError (Store × Nat) → Store
  | .ok r => r.1
  | .error _ => st

/-- GetUserStats (models.go): the stats row of a user, or `none` when the user
has never created an item. -/
def GetUserStats (st : Store) (u : String) : Option UserStats :=
  st.userStats.find? (fun s => s.userID == u)

namespace DB

/-- The row inserted by DB.InsertProblem: the INSERT lists only the columns
user_id, problem_name, link, difficulty, category, status, solved_at and
notes, so review_count takes its schema default 0 and last_reviewed_at is
NULL regardless of the entry's fields. -/
def entryRow (id : Nat) (p : ProblemEntry) : ProblemRow :=
  { id := id, userID := p.userID, problemName := p.problemName, link := p.link,
    difficulty := p.difficulty, category := p.category, status := p.status,
    solvedAt := p.solvedAt, lastReviewedAt := none, reviewCount := 0,
    notes := p.notes }

/-- The tag upsert used by InsertProblem and updateProblemTags:
INSERT INTO tags ON CONFLICT (name) DO UPDATE SET name=name RETURNING id,
so an existing name keeps its id and a new name gets the next id. -/
def upsertTag (st : Store) (name : String) : Store × Nat :=
  match st.tags.find? (fun t => t.name == name) with
  | some t => (st, t.id)
  | none =>
      ({ st with tags := st.tags ++ [⟨st.nextTagId, name⟩],
                 nextTagId := st.nextTagId + 1 }, st.nextTagId)

/-- The tag loop shared by DB.InsertProblem and DB.updateProblemTags: trim each
name, skip empties, upsert the tag, then INSERT the (problem_id, tag_id) link.
The plain link INSERT violates the junction table's primary key when the pair
already exists, which aborts the whole transaction. -/
def insertTagLinks (problemID : Nat) : Store → List String → Except StoreError Store
  | st, [] => .ok st
  | st, t :: rest =>
    let tag := trimSpace t
    if tag = "" then insertTagLinks problemID st rest
    else
      let res := upsertTag st tag
      if (problemID, res.2) ∈ res.1.problemTags then
        .error (.linkConflict problemID res.2)
      else
        insertTagLinks problemID
          { res.1 with problemTags := res.1.problemTags ++ [(problemID, res.2)] } rest

/-- The status switch of updateUserStats (models.go): exactly one branch fires
for a valid status, and no branch fires otherwise. -/
def bumpStatusCounter (s : UserStats) (status : String) : UserStats :=
  if status = StatusSolved then { s with totalSolved := s.totalSolved + 1 }
  else if status = StatusNeededHint then
    { s with totalNeededHint := s.totalNeededHint + 1 }
  else if status = StatusStuck then { s with totalStuck := s.totalStuck + 1 }
  else s

/-- The difficulty switch of updateUserStats (models.go). -/
def bumpDifficultyCounter (s : UserStats) (difficulty : String) : UserStats :=
  if difficulty = DifficultyEasy then { s with easyCount := s.easyCount + 1 }
  else if difficulty = DifficultyMedium then
    { s with mediumCount := s.mediumCount + 1 }
  else if difficulty = DifficultyHard then { s with hardCount := s.hardCount + 1 }
  else s

/-- The lazily created user_stats row: INSERT INTO user_stats
(user_id, last_active_at) VALUES (?, now); every counter takes its schema
default 0. -/
def emptyStats (userID : String) (now : Time) : UserStats :=
  { userID := userID, totalSolved := 0, totalNeededHint := 0, totalStuck := 0,
    easyCount := 0, mediumCount := 0, hardCount := 0, lastActiveAt := some now }

/-- updateUserStats (models.go): create the row if missing, then apply the
status bump, the difficulty bump and last_active_at = now to the user's row.
It runs inside the InsertProblem transaction. -/
def updateUserStats (st : Store) (p : ProblemEntry) (now : Time) : Store :=
  let st1 :=
    if st.userStats.any (fun s => s.userID == p.userID) then st
    else { st with userStats := st.userStats ++ [emptyStats p.userID now] }
  { st1 with userStats := st1.userStats.map (fun s =>
      if s.userID == p.userID then
        { bumpDifficultyCounter (bumpStatusCounter s p.status) p.difficulty with
          lastActiveAt := some now }
      else s) }

/-- DB.InsertProblem (models.go): validate, insert the problem row, upsert and
link the tags, update the user stats, all in one transaction.  `now` is the
clock reading the Go code takes via time.Now inside updateUserStats. -/
def InsertProblem (st : Store) (p : ProblemEntry) (now : Time) :
    Except StoreError (Store × Nat) :=
  match ValidateProblemEntry p with
  | .error e => .error e
  | .ok _ =>
    let problemID := st.nextProblemId
    let st1 := { st with problems := st.problems ++ [entryRow problemID p],
                         nextProblemId := st.nextProblemId + 1 }
    match insertTagLinks problemID st1 p.tags with
    | .error e => .error e
    | .ok st2 => .ok (updateUserStats st2 p now, problemID)

/-- The field replacement performed by the UPDATE statement of
DB.UpdateProblem: every mutable column is overwritten from the entry. -/
def updateRow (p : ProblemEntry) (r : ProblemRow) : ProblemRow :=
  { r with userID := p.userID, problemName := p.problemName, link := p.link,
           difficulty := p.difficulty, category := p.category,
           status := p.status, solvedAt := p.solvedAt,
           lastReviewedAt := p.lastReviewedAt, reviewCount := p.reviewCount,
           notes := p.notes }

/-- DB.UpdateProblem (models.go): validate, run UPDATE problems WHERE id = ?
(no rows-affected check, so a missing id is not an error), then
updateProblemTags: DELETE the problem's links and re-run the tag loop.
A missing id therefore yields a silent success, and the tag loop still
inserts tag rows and links for the nonexistent problem id. -/
def UpdateProblem (st : Store) (p : ProblemEntry) : Except StoreError Store :=
  match ValidateProblemEntry p with
  | .error e => .error e
  | .ok _ =>
    let st1 := { st with problems :=
                   st.problems.map (fun r : ProblemRow =>
                     if r.id == p.id then updateRow p r else r) }
    let st2 := { st1 with problemTags :=
                   st1.problemTags.filter (fun l => l.1 != p.id) }
    insertTagLinks p.id st2 p.tags

/-- DB.DeleteProblem (models.go): DELETE FROM problems WHERE id = ?.
The schema declares ON DELETE CASCADE on problem_tags, but nothing in the
repository enables SQLite foreign-key enforcement (the DSN
grind_review.db?_busy_timeout=5000&_journal_mode=WAL carries no
_foreign_keys parameter and no PRAGMA foreign_keys is issued), so the
cascade never fires and the junction rows stay behind.  There is no
rows-affected check and no user_stats statement; the commented-out
orphan-tag pruning is not performed. -/
def DeleteProblem (st : Store) (id : Nat) : Store :=
  { st with problems := st.problems.filter (fun r : ProblemRow => r.id != id) }

/-- DB.IncrementReviewCount (models.go): UPDATE problems SET
review_count = review_count + 1, last_reviewed_at = now WHERE id = ?.
No rows-affected check: a missing id updates nothing and returns success. -/
def IncrementReviewCount (st : Store) (problemID : Nat) (now : Time) : Store :=
  { st with problems := st.problems.map (fun r =>
      if r.id == problemID then
        { r with reviewCount := r.reviewCount + 1, lastReviewedAt := some now }
      else r) }

end DB

/-- The WHERE clause of ListProblemsForReview (identical in models.go and in
the GORM repository): user_id = ? AND solved_at <= cutoff AND
(last_reviewed_at IS NULL OR last_reviewed_at <= cutoff). -/
def isDue (u : String) (cutoff : Time) (r : ProblemRow) : Bool :=
  r.userID == u && decide (r.solvedAt ≤ cutoff) &&
    (match r.lastReviewedAt with
     | none => true
     | some t => decide (t ≤ cutoff))

/-- The comparison used by ORDER BY solved_at ASC. -/
def solvedLE (a b : ProblemRow) : Prop := a.solvedAt ≤ b.solvedAt

instance : DecidableRel solvedLE :=
  fun a b => inferInstanceAs (Decidable (a.solvedAt ≤ b.solvedAt))

instance : IsTotal ProblemRow solvedLE :=
  ⟨fun a b => Int.le_total a.solvedAt b.solvedAt⟩

instance : IsTrans ProblemRow solvedLE :=
  ⟨fun _ _ _ h1 h2 => le_trans h1 h2⟩

/-- The due rows of an owner in table order, before the ORDER BY. -/
def dueUnsorted (st : Store) (u : String) (now lookback : Time) : List ProblemRow :=
  st.problems.filter (isDue u (now - lookback))

/-- ListProblemsForReview (models.go 628-689 and the GORM repository): the due
rows of the owner, ordered ascending by solved_at; `cutoff = now - lookback`.
The sort is modelled by the stable insertion sort on the table-order rows. -/
def ListProblemsForReview (st : Store) (u : String) (now lookback : Time) :
    List ProblemRow :=
  List.insertionSort solvedLE (dueUnsorted st u now lookback)

/-- ListAllUsers (both generations): SELECT DISTINCT user_id FROM problems.
No order is guaranteed; the embedding deduplicates the user column. -/
def ListAllUsers (st : Store) : List String :=
  (st.problems.map (fun r => r.userID)).dedup

namespace Repo

/-- The tag-name conversion of ProblemEntry.ToProblem (GORM models file): trim
each name, drop empties, keep duplicates and case as submitted. -/
def toProblemTags (tags : List String) : List String :=
  (tags.map trimSpace).filter (fun t => t != "")

/-- The row created by the GORM Create call: every model field comes from the
entry (via ToProblem), including review_count and last_reviewed_at. -/
def entryRow (id : Nat) (p : ProblemEntry) : ProblemRow :=
  { id := id, userID := p.userID, problemName := p.problemName, link := p.link,
    difficulty := p.difficulty, category := p.category, status := p.status,
    solvedAt := p.solvedAt, lastReviewedAt := p.lastReviewedAt,
    reviewCount := p.reviewCount, notes := p.notes }

/-- GORM's association save for one tag name: upsert the tag by its unique
name and add the junction row unless it already exists (ON CONFLICT DO
NOTHING semantics, so duplicates are skipped rather than erroring). -/
def upsertTagSkip (problemID : Nat) (st : Store) (name : String) : Store :=
  let res := DB.upsertTag st name
  if (problemID, res.2) ∈ res.1.problemTags then res.1
  else { res.1 with problemTags := res.1.problemTags ++ [(problemID, res.2)] }

/-- Repository.CreateProblem (GORM repository): validate, convert the entry via
ToProblem, create the problem row with its tag associations in one
transaction.  No user_stats statement is issued anywhere in this path. -/
def CreateProblem (st : Store) (p : ProblemEntry) :
    Except StoreError (Store × Nat) :=
  match ValidateProblemEntry p with
  | .error e => .error e
  | .ok _ =>
    let problemID := st.nextProblemId
    let st1 := { st with problems := st.problems ++ [entryRow problemID p],
                         nextProblemId := st.nextProblemId + 1 }
    .ok ((toProblemTags p.tags).foldl (upsertTagSkip problemID) st1, problemID)

/-- The tag names of a problem via the junction join (GetProblemTags / GORM
Preload): only links whose tag row exists contribute, in link order. -/
def GetProblemTags (st : Store) (problemID : Nat) : List String :=
  (st.problemTags.filter (fun l => l.1 == problemID)).filterMap
    (fun l => (st.tags.find? (fun t => t.id == l.2)).map (fun t => t.name))

/-- The DTO read back from a stored row (FromProblem plus the tag join). -/
def rowEntry (st : Store) (r : ProblemRow) : ProblemEntry :=
  { id := r.id, userID := r.userID, problemName := r.problemName,
    link := r.link, difficulty := r.difficulty, category := r.category,
    status := r.status, solvedAt := r.solvedAt,
    lastReviewedAt := r.lastReviewedAt, reviewCount := r.reviewCount,
    notes := r.notes, tags := GetProblemTags st r.id }

/-- Repository.GetProblem (GORM repository): First by primary key, erroring
with "problem not found" when the record is absent. -/
def GetProblem (st : Store) (id : Nat) : Except StoreError ProblemEntry :=
  match st.problems.find? (fun r : ProblemRow => r.id == id) with
  | none => .error (.notFound id)
  | some r => .ok (rowEntry st r)

/-- Repository.UpdateProblem (GORM repository): validate, look the row up
(erroring with "problem not found" when absent), overwrite the mutable
fields, clear the tag associations and re-attach the converted tag list. -/
def UpdateProblem (st : Store) (p : ProblemEntry) : Except StoreError Store :=
  match ValidateProblemEntry p with
  | .error e => .error e
  | .ok _ =>
    if st.problems.any (fun r : ProblemRow => r.id == p.id) then
      let st1 := { st with problems :=
                     st.problems.map (fun r : ProblemRow =>
                       if r.id == p.id then DB.updateRow p r else r) }
      let st2 := { st1 with problemTags :=
                     st1.problemTags.filter (fun l => l.1 != p.id) }
      .ok ((toProblemTags p.tags).foldl (upsertTagSkip p.id) st2)
    else .error (.notFound p.id)

/-- Repository.DeleteProblem (GORM repository): errors with "problem not
found" when no row matches; otherwise the row is soft-deleted (modelled as
removal, which is what every query of this API observes).  The soft delete
leaves the junction rows in place, so the orphan-tag cleanup only removes
tags that already had no links. -/
def DeleteProblem (st : Store) (id : Nat) : Except StoreError Store :=
  if st.problems.any (fun r : ProblemRow => r.id == id) then
    .ok { st with
            problems := st.problems.filter (fun r : ProblemRow => r.id != id),
            tags := st.tags.filter (fun t : TagRow =>
              st.problemTags.any (fun l => l.2 == t.id)) }
  else .error (.notFound id)

/-- Repository.IncrementReviewCount (GORM repository): the same UPDATE as the
raw-SQL version; no rows-affected check, so a missing id silently
succeeds. -/
def IncrementReviewCount (st : Store) (problemID : Nat) (now : Time) :
    Except StoreError Store :=
  .ok { st with problems := st.problems.map (fun r : ProblemRow =>
          if r.id == problemID then
            { r with reviewCount := r.reviewCount + 1, lastReviewedAt := some now }
          else r) }

end Repo

/-- The scheduler configuration fields used by sendDailyReviewReminder. -/
structure SchedulerConfig where
  reviewChannel : String
  retryAttempts : Nat
  lookbackPeriod : Time
deriving Repr, DecidableEq

/-- Whether the reminder message for one owner is eventually delivered:
`send k` is the outcome of attempt `k`, attempt 0 being the original
ChannelMessageSend and attempts 1..retryAttempts the retry loop (which stops
at its first success, so later outcomes are irrelevant once one is true). -/
def deliveryConfirmed (send : Nat → Bool) (retryAttempts : Nat) : Bool :=
  send 0 || (List.range retryAttempts).any (fun i => send (i + 1))

/-- The per-owner body of sendDailyReviewReminder (scheduler.go 67-115): fetch
the owner's due list; if empty, do nothing; otherwise send the reminder.
IncrementReviewCount is called for each due item only in the branch where the
original send succeeded; when it fails, the retry loop may still deliver the
message but never increments.  The Discord user lookup is external and
modelled as succeeding.  Returns the store after the owner's increments and
the ids passed to IncrementReviewCount, in order. -/
def processOwner (cfg : SchedulerConfig) (send : Nat → Bool) (now : Time)
    (st : Store) (u : String) : Store × List Nat :=
  let problems := ListProblemsForReview st u now cfg.lookbackPeriod
  if problems.isEmpty then (st, [])
  else if send 0 then
    (problems.foldl (fun s p => DB.IncrementReviewCount s p.id now) st,
     problems.map (fun p => p.id))
  else (st, [])

/-- The owner loop of sendDailyReviewReminder: owners are processed in
sequence against the evolving store; the accumulated result pairs each
incremented problem id with the owner being processed. -/
def runOwners (cfg : SchedulerConfig) (send : String → Nat → Bool) (now : Time) :
    Store → List String → Store × List (String × Nat)
  | st, [] => (st, [])
  | st, u :: rest =>
    let res := processOwner cfg (send u) now st u
    let rest' := runOwners cfg send now res.1 rest
    (rest'.1, res.2.map (fun pid => (u, pid)) ++ rest'.2)

/-- sendDailyReviewReminder (scheduler.go): skip everything when the review
channel is unconfigured, otherwise run the owner loop over ListAllUsers. -/
def sendDailyReviewReminder (cfg : SchedulerConfig)
    (send : String → Nat → Bool) (now : Time) (st : Store) :
    Store × List (String × Nat) :=
  if cfg.reviewChannel = "" then (st, [])
  else runOwners cfg send now st (ListAllUsers st)

/-- A difficulty is one of the enumerated values. -/
def difficultyValid (d : String) : Prop :=
  d = DifficultyEasy ∨ d = DifficultyMedium ∨ d = DifficultyHard

/-- A status is one of the enumerated values. -/
def statusValid (s : String) : Prop :=
  s = StatusSolved ∨ s = StatusNeededHint ∨ s = StatusStuck

instance (d : String) : Decidable (difficultyValid d) := by
  unfold difficultyValid
  infer_instance

instance (s : String) : Decidable (statusValid s) := by
  unfold statusValid
  infer_instance

/-- Modelled from the spec (section 4.3): the expected stats row after one
creation — exactly the counter matching the status and the counter matching
the difficulty grow by one relative to the previous row (all-zero when the
owner had no row yet), and lastActiveAt becomes the creation time.  This is
the specification-side definition compared against updateUserStats. -/
def specStatsAfterCreate (st : Store) (p : ProblemEntry) (now : Time) : UserStats :=
  let old := (GetUserStats st p.userID).getD
    { userID := p.userID, totalSolved := 0, totalNeededHint := 0,
      totalStuck := 0, easyCount := 0, mediumCount := 0, hardCount := 0,
      lastActiveAt := none }
  { userID := p.userID,
    totalSolved := old.totalSolved + (if p.status = StatusSolved then 1 else 0),
    totalNeededHint :=
      old.totalNeededHint + (if p.status = StatusNeededHint then 1 else 0),
    totalStuck := old.totalStuck + (if p.status = StatusStuck then 1 else 0),
    easyCount := old.easyCount + (if p.difficulty = DifficultyEasy then 1 else 0),
    mediumCount :=
      old.mediumCount + (if p.difficulty = DifficultyMedium then 1 else 0),
    hardCount := old.hardCount + (if p.difficulty = DifficultyHard then 1 else 0),
    lastActiveAt := some now }

/-- The id and owner columns of the problems table, used to track that the
scheduler's increments never move a row between owners. -/
def sig (st : Store) : List (Nat × String) :=
  st.problems.map (fun r => (r.id, r.userID))

/-- The empty store, with both AUTOINCREMENT counters at 1. -/
def emptyStore : Store :=
  { problems := [], tags := [], problemTags := [], userStats := [],
    nextProblemId := 1, nextTagId := 1 }

/-- A valid entry with status Stuck and difficulty Hard. -/
def stuckHardEntry : ProblemEntry :=
  { id := 0, userID := "u1", problemName := "Two Sum", link := "",
    difficulty := DifficultyHard, category := "arrays", status := StatusStuck,
    solvedAt := 100, lastReviewedAt := none, reviewCount := 0, notes := "",
    tags := [] }

/-- An entry whose status is outside the enumerated values. -/
def invalidStatusEntry : ProblemEntry :=
  { stuckHardEntry with status := "Tried" }

/-- The entry used against DB.UpdateProblem with a nonexistent id. -/
def ghostEntry : ProblemEntry :=
  { stuckHardEntry with id := 1, tags := ["dp"] }

/-- What DB.UpdateProblem actually produces from the empty store and
`ghostEntry`: a tag row and a junction link for the nonexistent problem. -/
def ghostStore : Store :=
  { problems := [], tags := [⟨1, "dp"⟩], problemTags := [(1, 1)],
    userStats := [], nextProblemId := 1, nextTagId := 2 }

/-- The result store of the GORM CreateProblem on the empty store and
`stuckHardEntry`: the problem row is created but user_stats stays empty. -/
def gormCreateStore : Store :=
  { problems := [Repo.entryRow 1 stuckHardEntry], tags := [], problemTags := [],
    userStats := [], nextProblemId := 2, nextTagId := 1 }

/-- The store produced by DB.InsertProblem on the empty store and
`stuckHardEntry` at time 50. -/
def insertedStore : Store :=
  runCreate emptyStore (DB.InsertProblem emptyStore stuckHardEntry 50)

/-- A stored row of owner u1, solved at time 0 and never reviewed. -/
def rowU1 : ProblemRow :=
  { id := 1, userID := "u1", problemName := "Two Sum", link := "",
    difficulty := "Hard", category := "arrays", status := "Stuck",
    solvedAt := 0, lastReviewedAt := none, reviewCount := 0, notes := "" }

/-- A stored row of owner u2, solved at time 3 and never reviewed. -/
def rowU2 : ProblemRow :=
  { id := 2, userID := "u2", problemName := "Graph", link := "",
    difficulty := "Easy", category := "graphs", status := "Solved",
    solvedAt := 3, lastReviewedAt := none, reviewCount := 0, notes := "" }

/-- A store with one due problem per owner u1 and u2. -/
def twoOwnerStore : Store :=
  { problems := [rowU1, rowU2], tags := [], problemTags := [], userStats := [],
    nextProblemId := 3, nextTagId := 1 }

/-- A store holding only u1's row. -/
def oneRowStore : Store :=
  { problems := [rowU1], tags := [], problemTags := [], userStats := [],
    nextProblemId := 2, nextTagId := 1 }

/-- The scheduler configuration of the example cycles: configured channel,
3 retries, lookback 10. -/
def exampleCfg : SchedulerConfig :=
  { reviewChannel := "chan", retryAttempts := 3, lookbackPeriod := 10 }

/-- A notifier whose first attempt fails and whose every retry succeeds,
for every owner. -/
def failThenSucceed : String → Nat → Bool := fun _ k => decide (0 < k)

/-- A notifier that always fails for owner u1 and always succeeds for every
other owner. -/
def failForU1 : String → Nat → Bool := fun u _ => u != "u1"

/-- The entry of the tag-deduplication scenario: tag list dp, " dp ", Dp. -/
def dupTagEntry : ProblemEntry :=
  { stuckHardEntry with tags := ["dp", " dp ", "Dp"] }

/-- A store with one problem row of owner u1, a dp tag linked to it, and a
stats row for u1, used to observe what delete leaves behind. -/
def linkedStore : Store :=
  { problems := [rowU1], tags := [⟨1, "dp"⟩], problemTags := [(1, 1)],
    userStats := [{ userID := "u1", totalSolved := 0, totalNeededHint := 0,
                    totalStuck := 1, easyCount := 0, mediumCount := 0,
                    hardCount := 1, lastActiveAt := some 50 }],
    nextProblemId := 2, nextTagId := 2 }

/-- A store holding a single problem row with id 1. -/
def idOneStore : Store := oneRowStore

section Lemmas

/-- The membership characterisation of the due filter. -/
theorem isDue_eq_true_iff (u : String) (c : Time) (r : ProblemRow) :
    isDue u c r = true ↔
      r.userID = u ∧ r.solvedAt ≤ c ∧
        (r.lastReviewedAt = none ∨ ∃ t, r.lastReviewedAt = some t ∧ t ≤ c) := by
  rcases h : r.lastReviewedAt with _ | t <;>
    simp [isDue, h, Bool.and_eq_true, decide_eq_true_eq, beq_iff_eq, and_assoc]

/-- Membership in the due list, before untangling the sort. -/
theorem mem_review_iff (st : Store) (u : String) (now L : Time) (p : ProblemRow) :
    p ∈ ListProblemsForReview st u now L ↔
      p ∈ st.problems ∧ isDue u (now - L) p = true := by
  simp [ListProblemsForReview, dueUnsorted, List.mem_filter]

/-- Mapping rows that all miss the updated id is the identity. -/
theorem map_no_match (l : List ProblemRow) (id : Nat)
    (f : ProblemRow → ProblemRow) (h : ∀ r ∈ l, r.id ≠ id) :
    l.map (fun r => if r.id == id then f r else r) = l := by
  induction l with
  | nil => rfl
  | cons a l ih =>
    have ha : ¬(a.id == id) = true := by
      simp [beq_iff_eq]
      exact h a (List.mem_cons_self a l)
    simp only [List.map_cons, if_neg ha]
    rw [ih (fun r hr => h r (List.mem_cons_of_mem a hr))]

end Lemmas

section ClaimC1

/-- Claim C1 (code bug evaluation): with one owner whose due list is the
single row `rowU1`, a notifier that fails the original attempt and succeeds
on the first retry, and RetryAttempts = 3, the delivery is confirmed by the
retry loop, yet the scheduler calls IncrementReviewCount for nothing: the
increment block lives only in the branch where the original send succeeded,
so the daily cycle returns the store untouched and an empty increment list,
contradicting the claim that every due item is incremented exactly once. -/
theorem c1_retry_delivery_never_increments :
    ListProblemsForReview oneRowStore "u1" 100 exampleCfg.lookbackPeriod = [rowU1] ∧
    deliveryConfirmed (failThenSucceed "u1") exampleCfg.retryAttempts = true ∧
    sendDailyReviewReminder exampleCfg failThenSucceed 100 oneRowStore =
      (oneRowStore, []) :=
  ⟨rfl, rfl, rfl⟩

end ClaimC1

section ClaimC5

/-- Claim C5 (code bug evaluation): creating an item with the tag list
dp, " dp ", Dp does not succeed.  ToProblem trims and drops empties but keeps
the trimmed duplicate, and DB.InsertProblem aborts the whole transaction with
a duplicate (problem_id, tag_id) primary-key violation when it links the
second "dp" to the same tag row, instead of collapsing it. -/
theorem c5_trimmed_duplicate_tags_abort_create :
    Repo.toProblemTags ["dp", " dp ", "Dp"] = ["dp", "dp", "Dp"] ∧
    DB.InsertProblem emptyStore dupTagEntry 50 =
      Except.error (StoreError.linkConflict 1 1) :=
  ⟨rfl, rfl⟩

end ClaimC5

section ClaimC4

/-- Claim C4, counterexample: DB.UpdateProblem called on the empty store with
a valid entry whose id 1 does not exist returns success, not NotFoundError,
and changes the store: the tag loop inserts a tag row and a junction link for
the nonexistent problem id. -/
theorem c4_db_update_missing_id_silently_succeeds :
    DB.UpdateProblem emptyStore ghostEntry = Except.ok ghostStore ∧
    ghostStore ≠ emptyStore :=
  ⟨rfl, by decide⟩

/-- Claim C4, amended: the GORM Repository.UpdateProblem fails with
NotFoundError on a valid entry whose id is absent, and the rolled-back
transaction leaves the store unchanged; the raw-SQL DB.UpdateProblem instead
returns success on a missing id (see the counterexample). -/
theorem c4_repo_update_missing_id_not_found (st : Store) (p : ProblemEntry)
    (hvalid : ValidateProblemEntry p = .ok ())
    (hmissing : ∀ r ∈ st.problems, r.id ≠ p.id) :
    Repo.UpdateProblem st p = Except.error (StoreError.notFound p.id) ∧
    runExcept st (Repo.UpdateProblem st p) = st := by
  have hany : st.problems.any (fun r : ProblemRow => r.id == p.id) = false := by
    rw [List.any_eq_false]
    intro r hr
    simp [beq_iff_eq]
    exact hmissing r hr
  have h : Repo.UpdateProblem st p = Except.error (StoreError.notFound p.id) := by
    unfold Repo.UpdateProblem
    rw [hvalid]
    simp [hany]
  exact ⟨h, by rw [h]; rfl⟩

/-- Witness for the amended claim C4 at a concrete input. -/
theorem c4_repo_update_missing_id_not_found_witness :
    ValidateProblemEntry ghostEntry = .ok () ∧
    (∀ r ∈ emptyStore.problems, r.id ≠ ghostEntry.id) ∧
    Repo.UpdateProblem emptyStore ghostEntry =
      Except.error (StoreError.notFound ghostEntry.id) :=
  ⟨rfl, (by intro r hr; cases hr),
    (c4_repo_update_missing_id_not_found emptyStore ghostEntry rfl
      (by intro r hr; cases hr)).1⟩

end ClaimC4

section ClaimC9

/-- Claim C9, counterexample: deleting the stored item of `linkedStore` does
not remove its tag link.  The raw-SQL DELETE touches only the problems table
and foreign-key enforcement is never enabled, so the declared cascade does
not fire and the (1, 1) junction row survives; the GORM delete is a soft
delete whose transaction likewise leaves the junction row (and the still
referenced tag) in place.  The user_stats row is untouched throughout. -/
theorem c9_delete_leaves_tag_links :
    rowU1 ∈ linkedStore.problems ∧
    (DB.DeleteProblem linkedStore rowU1.id).problems = [] ∧
    (1, 1) ∈ (DB.DeleteProblem linkedStore rowU1.id).problemTags ∧
    (DB.DeleteProblem linkedStore rowU1.id).userStats = linkedStore.userStats ∧
    runExcept linkedStore (Repo.DeleteProblem linkedStore rowU1.id) =
      { linkedStore with problems := [] } ∧
    (1, 1) ∈ (runExcept linkedStore
      (Repo.DeleteProblem linkedStore rowU1.id)).problemTags :=
  ⟨List.mem_cons_self rowU1 [], rfl, List.mem_cons_self (1, 1) [], rfl, rfl,
    List.mem_cons_self (1, 1) []⟩

/-- Claim C9, amended: deleting a stored item removes the item row and leaves
the owner's user_stats row — and the whole user_stats table — entirely
unchanged, in both store generations (DB.DeleteProblem issues no user_stats
statement; the GORM repository has no user_stats at all); the item's tag
links, however, are not removed: the junction table and the tags table come
out of the raw-SQL delete verbatim, because foreign-key enforcement is off
and the declared cascade never fires. -/
theorem c9_delete_removes_row_only (st : Store) (r : ProblemRow)
    (_h : r ∈ st.problems) :
    (DB.DeleteProblem st r.id).userStats = st.userStats ∧
    (∀ q ∈ (DB.DeleteProblem st r.id).problems, q.id ≠ r.id) ∧
    (DB.DeleteProblem st r.id).problemTags = st.problemTags ∧
    (DB.DeleteProblem st r.id).tags = st.tags ∧
    (runExcept st (Repo.DeleteProblem st r.id)).userStats = st.userStats := by
  refine ⟨rfl, ?_, rfl, rfl, ?_⟩
  · intro q hq
    have := (List.mem_filter.mp hq).2
    simpa [bne_iff_ne] using this
  · unfold Repo.DeleteProblem
    split <;> rfl

/-- Witness for the amended claim C9 at a concrete input. -/
theorem c9_delete_removes_row_only_witness :
    rowU1 ∈ linkedStore.problems ∧
    (DB.DeleteProblem linkedStore rowU1.id).userStats = linkedStore.userStats ∧
    (DB.DeleteProblem linkedStore rowU1.id).problemTags =
      linkedStore.problemTags :=
  ⟨List.mem_cons_self rowU1 [],
    (c9_delete_removes_row_only linkedStore rowU1
      (List.mem_cons_self rowU1 [])).1,
    (c9_delete_removes_row_only linkedStore rowU1
      (List.mem_cons_self rowU1 [])).2.2.1⟩

end ClaimC9

section ClaimC10

/-- Claim C10 (confirmed): IncrementReviewCount with an id absent from the
store returns success and changes nothing, in both generations — the UPDATE
matches no row and neither implementation checks the affected-row count —
whereas the repository's GetProblem, UpdateProblem and DeleteProblem all
surface NotFoundError for a missing id. -/
theorem c10_increment_missing_id_silent (st : Store) (id : Nat) (now : Time)
    (h : ∀ r ∈ st.problems, r.id ≠ id) :
    DB.IncrementReviewCount st id now = st ∧
    Repo.IncrementReviewCount st id now = Except.ok st ∧
    Repo.GetProblem st id = Except.error (StoreError.notFound id) ∧
    Repo.DeleteProblem st id = Except.error (StoreError.notFound id) ∧
    (∀ p : ProblemEntry, p.id = id → ValidateProblemEntry p = .ok () →
      Repo.UpdateProblem st p = Except.error (StoreError.notFound id)) := by
  have hmap : st.problems.map (fun r : ProblemRow =>
      if r.id == id then
        { r with reviewCount := r.reviewCount + 1, lastReviewedAt := some now }
      else r) = st.problems := map_no_match st.problems id _ h
  have hany : st.problems.any (fun r : ProblemRow => r.id == id) = false := by
    rw [List.any_eq_false]
    intro r hr
    simp [beq_iff_eq]
    exact h r hr
  have hfind : st.problems.find? (fun r : ProblemRow => r.id == id) = none := by
    rw [List.find?_eq_none]
    intro r hr
    simp [beq_iff_eq]
    exact h r hr
  refine ⟨?_, ?_, ?_, ?_, ?_⟩
  · unfold DB.IncrementReviewCount
    rw [hmap]
  · unfold Repo.IncrementReviewCount
    rw [hmap]
  · unfold Repo.GetProblem
    rw [hfind]
  · unfold Repo.DeleteProblem
    rw [hany]
    rfl
  · intro p hp hvalid
    unfold Repo.UpdateProblem
    rw [hvalid, hp, hany]
    rfl

/-- Witness for claim C10 at a concrete input: id 7 is absent from the
one-row store. -/
theorem c10_increment_missing_id_silent_witness :
    (∀ r ∈ oneRowStore.problems, r.id ≠ 7) ∧
    DB.IncrementReviewCount oneRowStore 7 99 = oneRowStore ∧
    Repo.GetProblem oneRowStore 7 = Except.error (StoreError.notFound 7) := by
  have h : ∀ r ∈ oneRowStore.problems, r.id ≠ 7 := by decide
  exact ⟨h, (c10_increment_missing_id_silent oneRowStore 7 99 h).1,
    (c10_increment_missing_id_silent oneRowStore 7 99 h).2.2.1⟩

end ClaimC10

section ClaimC3

/-- Claim C3 (confirmed): a stored item of an owner appears in the due list
for lookback L exactly when solvedAt is at most now - L and the item either
was never reviewed or was last reviewed at or before now - L.  This is the
WHERE clause shared by both ListProblemsForReview implementations. -/
theorem c3_due_item_characterisation (st : Store) (u : String) (now L : Time)
    (p : ProblemRow) :
    p ∈ ListProblemsForReview st u now L ↔
      p ∈ st.problems ∧ p.userID = u ∧ p.solvedAt ≤ now - L ∧
        (p.lastReviewedAt = none ∨
          ∃ t, p.lastReviewedAt = some t ∧ t ≤ now - L) := by
  rw [mem_review_iff, isDue_eq_true_iff]

end ClaimC3

section SortLemmas

/-- Inserting an element into a list moves it ahead only of strictly older
rows, so the elements sharing any fixed solvedAt value keep their relative
order. -/
theorem filter_solvedAt_orderedInsert (t : Time) (a : ProblemRow)
    (l : List ProblemRow) :
    (List.orderedInsert solvedLE a l).filter (fun r => r.solvedAt == t) =
      if a.solvedAt == t then a :: l.filter (fun r => r.solvedAt == t)
      else l.filter (fun r => r.solvedAt == t) := by
  induction l with
  | nil => simp [List.orderedInsert, List.filter_cons]
  | cons b l ih =>
    simp only [List.orderedInsert]
    by_cases hab : solvedLE a b
    · rw [if_pos hab, List.filter_cons]
    · rw [if_neg hab, List.filter_cons, ih]
      have h : ¬ a.solvedAt ≤ b.solvedAt := hab
      have hba : b.solvedAt < a.solvedAt := lt_of_not_le h
      by_cases hat : (a.solvedAt == t) = true
      · have ha : a.solvedAt = t := by simpa [beq_iff_eq] using hat
        have hbt : (b.solvedAt == t) = false := by
          simp only [beq_eq_false_iff_ne, ne_eq]
          exact ne_of_lt (ha ▸ hba)
        rw [if_pos hat, if_pos hat, List.filter_cons, hbt]
        simp
      · have hat' : ¬ ((a.solvedAt == t) = true) := hat
        rw [if_neg hat', if_neg hat', List.filter_cons]

/-- The insertion sort by solvedAt is stable: restricted to the rows sharing
any fixed solvedAt value, the sorted list equals the input list. -/
theorem filter_solvedAt_insertionSort (t : Time) (l : List ProblemRow) :
    (List.insertionSort solvedLE l).filter (fun r => r.solvedAt == t) =
      l.filter (fun r => r.solvedAt == t) := by
  induction l with
  | nil => rfl
  | cons a l ih =>
    simp only [List.insertionSort]
    rw [filter_solvedAt_orderedInsert, ih, List.filter_cons]

end SortLemmas

section ClaimC6

/-- Claim C6 (confirmed): the due list is ordered ascending by solvedAt
(ORDER BY solved_at ASC), and ties are broken by a stable deterministic
order — the embedding's sort is a pure function of the store and, restricted
to any fixed solvedAt value, preserves the table order of the rows. -/
theorem c6_due_list_sorted_and_stable (st : Store) (u : String) (now L : Time) :
    List.Sorted solvedLE (ListProblemsForReview st u now L) ∧
    ∀ t : Time,
      (ListProblemsForReview st u now L).filter (fun r => r.solvedAt == t) =
        (dueUnsorted st u now L).filter (fun r => r.solvedAt == t) := by
  constructor
  · exact List.sorted_insertionSort solvedLE _
  · intro t
    exact filter_solvedAt_insertionSort t _

end ClaimC6

section ValidationLemmas

/-- The validation succeeds exactly when the required fields are non-empty
and the enum fields are in range. -/
theorem validate_ok_iff (p : ProblemEntry) :
    ValidateProblemEntry p = .ok () ↔
      p.userID ≠ "" ∧ p.problemName ≠ "" ∧ difficultyValid p.difficulty ∧
        statusValid p.status ∧ p.category ≠ "" := by
  unfold ValidateProblemEntry difficultyValid statusValid
  split_ifs with h1 h2 h3 h4 h5 <;> simp_all <;> tauto

/-- Every outcome of the validation is either success or a ValidationError. -/
theorem validate_cases (p : ProblemEntry) :
    ValidateProblemEntry p = .ok () ∨
      ∃ msg, ValidateProblemEntry p = .error (.validation msg) := by
  unfold ValidateProblemEntry
  split_ifs <;> simp

end ValidationLemmas

section ClaimC8

/-- Claim C8 (confirmed): an entry with a missing required field or an
out-of-range enum field makes createItem fail with a ValidationError before
any write, in both generations, and the store is unchanged. -/
theorem c8_invalid_entry_rejected_before_write (st : Store) (p : ProblemEntry)
    (now : Time)
    (h : p.userID = "" ∨ p.problemName = "" ∨ p.category = "" ∨
      ¬ difficultyValid p.difficulty ∨ ¬ statusValid p.status) :
    ∃ msg, ValidateProblemEntry p = Except.error (StoreError.validation msg) ∧
      DB.InsertProblem st p now = Except.error (StoreError.validation msg) ∧
      Repo.CreateProblem st p = Except.error (StoreError.validation msg) ∧
      runCreate st (DB.InsertProblem st p now) = st ∧
      runCreate st (Repo.CreateProblem st p) = st := by
  have hnot : ¬ ValidateProblemEntry p = .ok () := by
    rw [validate_ok_iff]
    tauto
  rcases validate_cases p with hok | ⟨msg, hmsg⟩
  · exact absurd hok hnot
  · have h1 : DB.InsertProblem st p now = Except.error (StoreError.validation msg) := by
      unfold DB.InsertProblem
      rw [hmsg]
    have h2 : Repo.CreateProblem st p = Except.error (StoreError.validation msg) := by
      unfold Repo.CreateProblem
      rw [hmsg]
    exact ⟨msg, hmsg, h1, h2, by rw [h1]; rfl, by rw [h2]; rfl⟩

/-- Witness for claim C8 at a concrete input: status Tried is invalid. -/
theorem c8_invalid_entry_rejected_before_write_witness :
    (¬ statusValid invalidStatusEntry.status) ∧
    (∃ msg, ValidateProblemEntry invalidStatusEntry =
        Except.error (StoreError.validation msg) ∧
      DB.InsertProblem emptyStore invalidStatusEntry 0 =
        Except.error (StoreError.validation msg) ∧
      Repo.CreateProblem emptyStore invalidStatusEntry =
        Except.error (StoreError.validation msg) ∧
      runCreate emptyStore (DB.InsertProblem emptyStore invalidStatusEntry 0) =
        emptyStore ∧
      runCreate emptyStore (Repo.CreateProblem emptyStore invalidStatusEntry) =
        emptyStore) :=
  ⟨by decide,
    c8_invalid_entry_rejected_before_write emptyStore invalidStatusEntry 0
      (Or.inr (Or.inr (Or.inr (Or.inr (by decide)))))⟩

end ClaimC8

section StatsLemmas

/-- The status bump never changes the row's owner. -/
theorem bumpStatusCounter_userID (s : UserStats) (x : String) :
    (DB.bumpStatusCounter s x).userID = s.userID := by
  unfold DB.bumpStatusCounter
  split_ifs <;> rfl

/-- The difficulty bump never changes the row's owner. -/
theorem bumpDifficultyCounter_userID (s : UserStats) (x : String) :
    (DB.bumpDifficultyCounter s x).userID = s.userID := by
  unfold DB.bumpDifficultyCounter
  split_ifs <;> rfl

/-- The tag upsert leaves the user_stats table untouched. -/
theorem upsertTag_userStats (st : Store) (name : String) :
    (DB.upsertTag st name).1.userStats = st.userStats := by
  unfold DB.upsertTag
  split <;> rfl

/-- The whole tag loop leaves the user_stats table untouched. -/
theorem insertTagLinks_userStats (problemID : Nat) (tags : List String) :
    ∀ st st' : Store, DB.insertTagLinks problemID st tags = .ok st' →
      st'.userStats = st.userStats := by
  induction tags with
  | nil =>
    intro st st' h
    cases h
    rfl
  | cons t rest ih =>
    intro st st' h
    simp only [DB.insertTagLinks] at h
    split at h
    · exact ih st st' h
    · split at h
      · cases h
      · have h2 := ih _ _ h
        rw [h2]
        exact upsertTag_userStats st (trimSpace t)

/-- Mapping elements that all fail a predicate through a conditional
transformation is the identity. -/
theorem map_if_not {α : Type} (l : List α) (pred : α → Bool) (f : α → α)
    (h : ∀ x ∈ l, ¬ pred x = true) :
    l.map (fun x => if pred x then f x else x) = l := by
  induction l with
  | nil => rfl
  | cons a l ih =>
    simp only [List.map_cons, if_neg (h a (List.mem_cons_self a l))]
    rw [ih (fun x hx => h x (List.mem_cons_of_mem a hx))]

/-- Finding the owner's row after the per-owner update hits exactly the old
row, transformed, as long as the transformation preserves the owner. -/
theorem find?_userStats_update (l : List UserStats) (u : String)
    (f : UserStats → UserStats) (hf : ∀ s, (f s).userID = s.userID) :
    (l.map (fun s => if s.userID == u then f s else s)).find?
        (fun s => s.userID == u) =
      (l.find? (fun s => s.userID == u)).map f := by
  induction l with
  | nil => rfl
  | cons s l ih =>
    by_cases hs : (s.userID == u) = true
    · have hfs : ((f s).userID == u) = true := by rw [hf]; exact hs
      rw [List.map_cons, if_pos hs,
        @List.find?_cons_of_pos _ (fun s => s.userID == u) (f s) _ hfs,
        @List.find?_cons_of_pos _ (fun s => s.userID == u) s _ hs]
      rfl
    · rw [List.map_cons, if_neg hs,
        @List.find?_cons_of_neg _ (fun s => s.userID == u) s _ hs,
        @List.find?_cons_of_neg _ (fun s => s.userID == u) s _ hs, ih]

/-- The stats row read back right after updateUserStats: the previous row
(or the lazily created zero row) with both bumps applied and last_active_at
set to the update time. -/
theorem getUserStats_updateUserStats (st : Store) (p : ProblemEntry) (now : Time) :
    GetUserStats (DB.updateUserStats st p now) p.userID =
      some { DB.bumpDifficultyCounter
          (DB.bumpStatusCounter
            ((GetUserStats st p.userID).getD (DB.emptyStats p.userID now))
            p.status) p.difficulty with
          lastActiveAt := some now } := by
  have hf : ∀ s : UserStats,
      (({ DB.bumpDifficultyCounter (DB.bumpStatusCounter s p.status)
            p.difficulty with lastActiveAt := some now } : UserStats)).userID
        = s.userID := by
    intro s
    show (DB.bumpDifficultyCounter (DB.bumpStatusCounter s p.status)
      p.difficulty).userID = s.userID
    rw [bumpDifficultyCounter_userID, bumpStatusCounter_userID]
  by_cases hany : st.userStats.any (fun s => s.userID == p.userID) = true
  · simp only [DB.updateUserStats, GetUserStats, if_pos hany]
    rw [find?_userStats_update st.userStats p.userID _ hf]
    obtain ⟨s0, hs0mem, hs0⟩ := List.any_eq_true.mp hany
    have hsome : (st.userStats.find? (fun s => s.userID == p.userID)).isSome := by
      rw [List.find?_isSome]
      exact ⟨s0, hs0mem, hs0⟩
    obtain ⟨s1, h1⟩ := Option.isSome_iff_exists.mp hsome
    rw [h1]
    rfl
  · simp only [DB.updateUserStats, GetUserStats, if_neg hany]
    have hall : ∀ s ∈ st.userStats, ¬ (s.userID == p.userID) = true := by
      intro s hs hmm
      exact hany (List.any_eq_true.mpr ⟨s, hs, hmm⟩)
    have hfind : st.userStats.find? (fun s => s.userID == p.userID) = none :=
      List.find?_eq_none.mpr hall
    have hpred : ((DB.emptyStats p.userID now).userID == p.userID) = true := by
      simp [DB.emptyStats]
    rw [List.map_append, map_if_not st.userStats _ _ hall, List.map_cons,
      if_pos hpred, List.map_nil, List.find?_append, hfind]
    have hfpred :
        ((({ DB.bumpDifficultyCounter
              (DB.bumpStatusCounter (DB.emptyStats p.userID now) p.status)
              p.difficulty with lastActiveAt := some now } : UserStats)).userID
          == p.userID) = true := by
      rw [hf]
      exact hpred
    rw [Option.none_or]
    exact @List.find?_cons_of_pos _ (fun s : UserStats => s.userID == p.userID) _ [] hfpred

/-- With a valid status and difficulty, the two bumps increment exactly the
matching counter of each group, leave the other counters alone, and stamp
last_active_at. -/
theorem bump_spec (s : UserStats) (p : ProblemEntry) (now : Time)
    (hs : statusValid p.status) (hd : difficultyValid p.difficulty)
    (huid : s.userID = p.userID) :
    ({ DB.bumpDifficultyCounter (DB.bumpStatusCounter s p.status) p.difficulty with
       lastActiveAt := some now } : UserStats) =
    { userID := p.userID,
      totalSolved := s.totalSolved + (if p.status = StatusSolved then 1 else 0),
      totalNeededHint :=
        s.totalNeededHint + (if p.status = StatusNeededHint then 1 else 0),
      totalStuck := s.totalStuck + (if p.status = StatusStuck then 1 else 0),
      easyCount := s.easyCount + (if p.difficulty = DifficultyEasy then 1 else 0),
      mediumCount :=
        s.mediumCount + (if p.difficulty = DifficultyMedium then 1 else 0),
      hardCount := s.hardCount + (if p.difficulty = DifficultyHard then 1 else 0),
      lastActiveAt := some now } := by
  rcases hs with h | h | h <;> rcases hd with h2 | h2 | h2 <;>
    simp [DB.bumpStatusCounter, DB.bumpDifficultyCounter, h, h2, huid,
      StatusSolved, StatusNeededHint, StatusStuck, DifficultyEasy,
      DifficultyMedium, DifficultyHard]

end StatsLemmas

section ClaimC2

/-- Claim C2, amended: whenever the raw-SQL createItem (DB.InsertProblem)
succeeds, the owner's stats row after the transaction equals the previous
row with exactly the counter matching the item's status and exactly the
counter matching its difficulty incremented by one and lastActiveAt set to
the creation time — in particular a Stuck/Hard create raises totalStuck and
hardCount by exactly 1 (see the witness).  The GORM Repository.CreateProblem
performs no stats update at all (see the counterexample). -/
theorem c2_insertProblem_updates_stats_once (st : Store) (p : ProblemEntry)
    (now : Time) (st' : Store) (pid : Nat)
    (h : DB.InsertProblem st p now = Except.ok (st', pid)) :
    statusValid p.status ∧ difficultyValid p.difficulty ∧
    GetUserStats st' p.userID = some (specStatsAfterCreate st p now) := by
  unfold DB.InsertProblem at h
  split at h
  · cases h
  · rename_i u hv
    have hvalid := (validate_ok_iff p).mp hv
    obtain ⟨-, -, hd, hs, -⟩ := hvalid
    have h' : (match DB.insertTagLinks st.nextProblemId
        { st with problems := st.problems ++ [DB.entryRow st.nextProblemId p],
                  nextProblemId := st.nextProblemId + 1 } p.tags with
      | Except.error e => (Except.error e : Except StoreError (Store × Nat))
      | Except.ok st2 => Except.ok (DB.updateUserStats st2 p now, st.nextProblemId))
        = Except.ok (st', pid) := h
    clear h
    split at h'
    · cases h'
    · rename_i st2 hlink
      have hpair := Except.ok.inj h'
      have hst' : DB.updateUserStats st2 p now = st' := congrArg Prod.fst hpair
      have hus : st2.userStats = st.userStats := by
        have := insertTagLinks_userStats st.nextProblemId p.tags _ _ hlink
        rw [this]
      refine ⟨hs, hd, ?_⟩
      rw [← hst', getUserStats_updateUserStats]
      have hsame : GetUserStats st2 p.userID = GetUserStats st p.userID := by
        unfold GetUserStats
        rw [hus]
      rw [hsame]
      cases hu : GetUserStats st p.userID with
      | some s1 =>
        have huid : s1.userID = p.userID := by
          have := List.find?_some hu
          simpa [beq_iff_eq] using this
        rw [Option.getD_some,
          bump_spec s1 p now hs hd huid]
        simp [specStatsAfterCreate, hu]
      | none =>
        rw [Option.getD_none,
          bump_spec (DB.emptyStats p.userID now) p now hs hd rfl]
        simp [specStatsAfterCreate, hu, DB.emptyStats]

/-- Witness for the amended claim C2: a Stuck/Hard create from the empty
store raises totalStuck and hardCount to 1 and stamps lastActiveAt with the
creation time 50. -/
theorem c2_insertProblem_updates_stats_once_witness :
    DB.InsertProblem emptyStore stuckHardEntry 50 = Except.ok (insertedStore, 1) ∧
    GetUserStats insertedStore stuckHardEntry.userID =
      some (specStatsAfterCreate emptyStore stuckHardEntry 50) ∧
    specStatsAfterCreate emptyStore stuckHardEntry 50 =
      { userID := "u1", totalSolved := 0, totalNeededHint := 0, totalStuck := 1,
        easyCount := 0, mediumCount := 0, hardCount := 1,
        lastActiveAt := some 50 } :=
  ⟨rfl, (c2_insertProblem_updates_stats_once emptyStore stuckHardEntry 50
      insertedStore 1 rfl).2.2, rfl⟩

/-- Claim C2, counterexample: the GORM Repository.CreateProblem succeeds on a
valid Stuck/Hard entry but leaves the user_stats table exactly as it was —
no counter is incremented and no stats row is created, refuting the claim
that createItem updates the owner's counters in the same transaction. -/
theorem c2_gorm_create_updates_no_stats :
    Repo.CreateProblem emptyStore stuckHardEntry = Except.ok (gormCreateStore, 1) ∧
    gormCreateStore.userStats = emptyStore.userStats ∧
    GetUserStats gormCreateStore stuckHardEntry.userID = none :=
  ⟨rfl, rfl, rfl⟩

end ClaimC2

section SchedulerLemmas

/-- When the original send for an owner fails, the per-owner step changes
nothing and increments nothing, whatever the retries do. -/
theorem processOwner_skip (cfg : SchedulerConfig) (send : Nat → Bool)
    (now : Time) (st : Store) (u : String) (h : send 0 = false) :
    processOwner cfg send now st u = (st, []) := by
  unfold processOwner
  rw [h]
  simp

/-- An owner whose original send fails can be dropped from the cycle without
changing anything: the loop just advances to the next owner. -/
theorem runOwners_skip (cfg : SchedulerConfig) (send : String → Nat → Bool)
    (now : Time) (u : String) (us2 : List String) (h : send u 0 = false) :
    ∀ (us1 : List String) (st : Store),
      runOwners cfg send now st (us1 ++ u :: us2) =
        runOwners cfg send now st (us1 ++ us2) := by
  intro us1
  induction us1 with
  | nil =>
    intro st
    simp only [List.nil_append, runOwners,
      processOwner_skip cfg (send u) now st u h]
    simp
  | cons v us1 ih =>
    intro st
    show runOwners cfg send now st (v :: (us1 ++ u :: us2)) =
      runOwners cfg send now st (v :: (us1 ++ us2))
    simp only [runOwners]
    rw [ih]

/-- No increment of the whole cycle is attributed to an owner whose original
send fails. -/
theorem runOwners_no_calls (cfg : SchedulerConfig) (send : String → Nat → Bool)
    (now : Time) (u : String) (h : send u 0 = false) :
    ∀ (us : List String) (st : Store) (c : String × Nat),
      c ∈ (runOwners cfg send now st us).2 → c.1 ≠ u := by
  intro us
  induction us with
  | nil =>
    intro st c hc
    simp [runOwners] at hc
  | cons w rest ih =>
    intro st c hc
    simp only [runOwners] at hc
    rw [List.mem_append] at hc
    rcases hc with hc | hc
    · rw [List.mem_map] at hc
      obtain ⟨pid, hpid, rfl⟩ := hc
      intro hwu
      have hw : w = u := hwu
      rw [hw, processOwner_skip cfg (send u) now st u h] at hpid
      cases hpid
    · exact ih _ c hc

/-- A review-count increment changes neither the id nor the owner of any
row. -/
theorem sig_increment (st : Store) (pid : Nat) (now : Time) :
    sig (DB.IncrementReviewCount st pid now) = sig st := by
  unfold sig DB.IncrementReviewCount
  rw [List.map_map]
  apply List.map_congr_left
  intro r _
  simp only [Function.comp_apply]
  split <;> rfl

/-- Folded increments change no id and no owner. -/
theorem sig_foldl_inc (now : Time) :
    ∀ (ps : List ProblemRow) (st : Store),
      sig (ps.foldl (fun s p => DB.IncrementReviewCount s p.id now) st) =
        sig st := by
  intro ps
  induction ps with
  | nil => intro st; rfl
  | cons p ps ih =>
    intro st
    rw [List.foldl_cons, ih, sig_increment]

/-- One owner step of the cycle changes no id and no owner. -/
theorem sig_processOwner (cfg : SchedulerConfig) (send : Nat → Bool)
    (now : Time) (st : Store) (u : String) :
    sig (processOwner cfg send now st u).1 = sig st := by
  by_cases he : (ListProblemsForReview st u now cfg.lookbackPeriod).isEmpty = true
  · simp [processOwner, he]
  · by_cases hs : send 0 = true
    · simp [processOwner, he, hs, sig_foldl_inc]
    · simp [processOwner, he, hs]

/-- A whole cycle changes no id and no owner. -/
theorem sig_runOwners (cfg : SchedulerConfig) (send : String → Nat → Bool)
    (now : Time) :
    ∀ (us : List String) (st : Store),
      sig (runOwners cfg send now st us).1 = sig st := by
  intro us
  induction us with
  | nil => intro st; rfl
  | cons w rest ih =>
    intro st
    simp only [runOwners]
    rw [ih, sig_processOwner]

/-- With distinct row ids, an id determines its owner. -/
theorem sig_unique_owner (st0 : Store)
    (hnd : (st0.problems.map (fun r => r.id)).Nodup)
    (i : Nat) (w v : String)
    (h1 : (i, w) ∈ sig st0) (h2 : (i, v) ∈ sig st0) : w = v := by
  unfold sig at h1 h2
  rw [List.mem_map] at h1 h2
  obtain ⟨r1, hr1, he1⟩ := h1
  obtain ⟨r2, hr2, he2⟩ := h2
  rw [Prod.mk.injEq] at he1 he2
  have hid : r1.id = r2.id := by rw [he1.1, he2.1]
  have heq : r1 = r2 := List.inj_on_of_nodup_map hnd hr1 hr2 hid
  rw [← he1.2, ← he2.2, heq]

/-- Incrementing a row that belongs to no row of owner u preserves u's rows
verbatim. -/
theorem filter_user_map_inc (u : String) (pid : Nat) (now : Time) :
    ∀ l : List ProblemRow, (∀ r ∈ l, r.id = pid → ¬ r.userID = u) →
      (l.map (fun r => if r.id == pid then
          { r with reviewCount := r.reviewCount + 1, lastReviewedAt := some now }
        else r)).filter (fun r => r.userID == u) =
      l.filter (fun r => r.userID == u) := by
  intro l
  induction l with
  | nil => intro _; rfl
  | cons a l ih =>
    intro h
    have hrest := ih (fun r hr => h r (List.mem_cons_of_mem a hr))
    by_cases ha : (a.id == pid) = true
    · have hau : (a.userID == u) = false := by
        simp only [beq_eq_false_iff_ne, ne_eq]
        exact h a (List.mem_cons_self a l) (by simpa using ha)
      simp only [List.map_cons, if_pos ha, List.filter_cons]
      simpa [hau] using hrest
    · simp only [List.map_cons, if_neg ha, List.filter_cons]
      split_ifs
      · rw [hrest]
      · exact hrest

/-- Folding the increments of an owner w distinct from u over a store whose
id/owner pairs match the reference store, where every increment targets an
id owned by w, preserves u's rows. -/
theorem filter_user_foldl_inc (u : String) (now : Time) (st0 : Store)
    (hnd : (st0.problems.map (fun r => r.id)).Nodup) :
    ∀ (ps : List ProblemRow) (w : String), ¬ w = u →
      ∀ st : Store, sig st = sig st0 →
        (∀ p ∈ ps, (p.id, w) ∈ sig st0) →
        ((ps.foldl (fun s p => DB.IncrementReviewCount s p.id now) st).problems.filter
            (fun r => r.userID == u)) =
          st.problems.filter (fun r => r.userID == u) := by
  intro ps
  induction ps with
  | nil =>
    intro w _ st _ _
    rfl
  | cons p ps ih =>
    intro w hwu st hsig hmem
    rw [List.foldl_cons]
    have hne : ∀ r ∈ st.problems, r.id = p.id → ¬ r.userID = u := by
      intro r hr hid hru
      have hmemr : (p.id, u) ∈ sig st0 := by
        rw [← hsig]
        unfold sig
        rw [List.mem_map]
        exact ⟨r, hr, by rw [hid, hru]⟩
      have hmemp : (p.id, w) ∈ sig st0 := hmem p (List.mem_cons_self p ps)
      exact hwu (sig_unique_owner st0 hnd p.id w u hmemp hmemr)
    have hstep : (DB.IncrementReviewCount st p.id now).problems.filter
        (fun r => r.userID == u) = st.problems.filter (fun r => r.userID == u) := by
      unfold DB.IncrementReviewCount
      exact filter_user_map_inc u p.id now st.problems hne
    rw [ih w hwu _ (by rw [sig_increment]; exact hsig)
      (fun q hq => hmem q (List.mem_cons_of_mem p hq)), hstep]

/-- One owner step for an owner distinct from u preserves u's rows. -/
theorem filter_user_processOwner (cfg : SchedulerConfig) (send : Nat → Bool)
    (now : Time) (st0 : Store)
    (hnd : (st0.problems.map (fun r => r.id)).Nodup)
    (u w : String) (hwu : ¬ w = u) (st : Store) (hsig : sig st = sig st0) :
    (processOwner cfg send now st w).1.problems.filter (fun r => r.userID == u) =
      st.problems.filter (fun r => r.userID == u) := by
  by_cases he : (ListProblemsForReview st w now cfg.lookbackPeriod).isEmpty = true
  · simp [processOwner, he]
  · by_cases hsd : send 0 = true
    · have hmemdue : ∀ p ∈ ListProblemsForReview st w now cfg.lookbackPeriod,
          (p.id, w) ∈ sig st0 := by
        intro p hp
        have hm := (mem_review_iff st w now cfg.lookbackPeriod p).mp hp
        have hdue := (isDue_eq_true_iff w (now - cfg.lookbackPeriod) p).mp hm.2
        rw [← hsig]
        unfold sig
        rw [List.mem_map]
        exact ⟨p, hm.1, by rw [hdue.1]⟩
      have hfold := filter_user_foldl_inc u now st0 hnd
        (ListProblemsForReview st w now cfg.lookbackPeriod) w hwu st hsig hmemdue
      simpa [processOwner, he, hsd] using hfold
    · simp [processOwner, he, hsd]

/-- A whole cycle in which u's original send fails preserves u's rows,
provided the store's row ids are distinct. -/
theorem filter_user_runOwners (cfg : SchedulerConfig)
    (send : String → Nat → Bool) (now : Time) (u : String)
    (h0 : send u 0 = false) (st0 : Store)
    (hnd : (st0.problems.map (fun r => r.id)).Nodup) :
    ∀ (us : List String) (st : Store), sig st = sig st0 →
      (runOwners cfg send now st us).1.problems.filter (fun r => r.userID == u) =
        st.problems.filter (fun r => r.userID == u) := by
  intro us
  induction us with
  | nil =>
    intro st _
    rfl
  | cons w rest ih =>
    intro st hsig
    simp only [runOwners]
    have hstep : (processOwner cfg (send w) now st w).1.problems.filter
        (fun r => r.userID == u) = st.problems.filter (fun r => r.userID == u) := by
      by_cases hw : w = u
      · rw [hw, processOwner_skip cfg (send u) now st u h0]
      · exact filter_user_processOwner cfg (send w) now st0 hnd u w hw st hsig
    rw [ih _ (by rw [sig_processOwner]; exact hsig), hstep]

end SchedulerLemmas

section ClaimC7

/-- Claim C7 (confirmed): when every attempt for owner u — the original send
and all RetryAttempts retries — fails, the cycle behaves exactly as if u had
been skipped: the owner loop's result is unchanged if u is removed from the
owner list (so the remaining owners are still processed exactly as before),
no increment of the cycle is attributed to u, and u's stored rows come out
of the cycle verbatim, so they remain due on the next cycle.  Row ids are
assumed distinct, as the AUTOINCREMENT primary key guarantees. -/
theorem c7_all_attempts_fail_no_increment (cfg : SchedulerConfig)
    (send : String → Nat → Bool) (now : Time) (st : Store) (u : String)
    (us1 us2 : List String)
    (hfail : ∀ k, k ≤ cfg.retryAttempts → send u k = false)
    (hnd : (st.problems.map (fun r => r.id)).Nodup) :
    runOwners cfg send now st (us1 ++ u :: us2) =
      runOwners cfg send now st (us1 ++ us2) ∧
    (∀ c ∈ (runOwners cfg send now st (us1 ++ u :: us2)).2, c.1 ≠ u) ∧
    (runOwners cfg send now st (us1 ++ u :: us2)).1.problems.filter
        (fun r => r.userID == u) =
      st.problems.filter (fun r => r.userID == u) := by
  have h0 : send u 0 = false := hfail 0 (Nat.zero_le _)
  refine ⟨runOwners_skip cfg send now u us2 h0 us1 st, ?_, ?_⟩
  · intro c hc
    exact runOwners_no_calls cfg send now u h0 _ st c hc
  · exact filter_user_runOwners cfg send now u h0 st hnd _ st rfl

/-- Witness for claim C7: two owners, the notifier fails every attempt for
u1 and succeeds for u2. -/
theorem c7_all_attempts_fail_no_increment_witness :
    (∀ k, k ≤ exampleCfg.retryAttempts → failForU1 "u1" k = false) ∧
    ((twoOwnerStore.problems.map (fun r => r.id)).Nodup) ∧
    runOwners exampleCfg failForU1 100 twoOwnerStore ["u1", "u2"] =
      runOwners exampleCfg failForU1 100 twoOwnerStore ["u2"] ∧
    (∀ c ∈ (runOwners exampleCfg failForU1 100 twoOwnerStore ["u1", "u2"]).2,
      c.1 ≠ "u1") ∧
    (runOwners exampleCfg failForU1 100 twoOwnerStore ["u1", "u2"]).1.problems.filter
        (fun r => r.userID == "u1") =
      twoOwnerStore.problems.filter (fun r => r.userID == "u1") := by
  have hfail : ∀ k, k ≤ exampleCfg.retryAttempts → failForU1 "u1" k = false :=
    fun k _ => rfl
  have hnd : (twoOwnerStore.problems.map (fun r => r.id)).Nodup := by decide
  have happ := c7_all_attempts_fail_no_increment exampleCfg failForU1 100
    twoOwnerStore "u1" [] ["u2"] hfail hnd
  exact ⟨hfail, hnd, happ.1, happ.2.1, happ.2.2⟩

end ClaimC7

end GrindReview
